import Mathlib

/-!
Verification of the anomaly rule engine (`src/anomaly_detector.py`) and the
timeline builder (`src/timeline.py`) of the memorize-ai forensics repository,
via a shallow embedding of the relevant Python code in Lean.

Modelling conventions:
* Python dict-shaped process records become the structure `Proc`; a key that may
  be missing from the dict becomes an `Option` field (`proc.get(k)` is the field
  itself, `proc.get(k, d)` is `.getD d`).
* Python string truthiness (`if not s`) is the test `s = ""`; `None` truthiness
  for optional fields is the `Option` being `none`.
* Finding and event dictionaries become the structures `Finding` and
  `TimelineEvent`.  The human-readable `description` strings are pure
  presentation (never inspected by any logic) and are omitted from `Finding`.
* The static rule tables of Python (`set` / `dict` literals) become Lean lists in
  source order.  The dicts (`expected_parents`, insertion-ordered in Python)
  are order-faithful; for the `set` literals only membership is ever relevant
  to the claims proved here, except for set-iteration order in the
  typosquatting rule, where source order is one deterministic choice (the
  claims proved below are order-independent: at most one reference name ever
  crosses the threshold in each instance considered).
* Machine floats in the similarity rule are modelled by exact rationals; the
  only comparisons performed are far from the representation error of IEEE
  doubles for the short strings involved (ratios are quotients with
  denominator at most a few dozen, compared against 0.85).
-/

/-- Shallow embedding of one process record (a Python dict row from
`db.get_processes`).  Fields that the code reads with `.get` and that may be
absent are `Option`s. -/
structure Proc where
  pid : Int
  ppid : Option Int := none
  name : Option String := none
  path : Option String := none
  create_time : Option String := none
  exit_time : Option String := none
  is_hidden : Bool := false
  is_suspicious : Bool := false
deriving DecidableEq

/-- Shallow embedding of an anomaly finding dictionary.  Only the fields the
code actually stores are modelled; the presentation-only `description` string
is omitted. -/
structure Finding where
  ftype : String
  severity : String
  pid : Option Int := none
  process : String := ""
  parent_pid : Option Int := none
  parent_name : Option String := none
  expected_parent : Option String := none
  similar_to : Option String := none
  similarity : Option Rat := none
  path : Option String := none
  count : Option Nat := none
  pids : List Int := []
deriving DecidableEq

/-- Table `self.expected_parents` from the detector constructor: known-good
parent-to-children table, in Python dict insertion order. -/
def expectedParents : List (String × List String) :=
  [("services.exe", ["svchost.exe", "dllhost.exe", "taskhost.exe", "wuauclt.exe", "spoolsv.exe"]),
   ("explorer.exe", ["chrome.exe", "firefox.exe", "notepad.exe", "cmd.exe", "powershell.exe",
                     "iexplore.exe", "msedge.exe", "OneDrive.exe"]),
   ("svchost.exe", ["wuauclt.exe", "SearchIndexer.exe", "RuntimeBroker.exe", "taskhostw.exe"]),
   ("winlogon.exe", ["userinit.exe", "LogonUI.exe"]),
   ("userinit.exe", ["explorer.exe"]),
   ("smss.exe", ["csrss.exe", "wininit.exe"]),
   ("wininit.exe", ["services.exe", "lsass.exe"])]

/-- Table `self.single_instance_processes`: processes that should only have one
instance (set literal, in source order). -/
def singleInstanceProcesses : List String :=
  ["csrss.exe", "smss.exe", "wininit.exe", "services.exe", "lsass.exe", "winlogon.exe"]

/-- Table `self.legitimate_paths`: known legitimate paths for Windows processes. -/
def legitimatePaths : List String :=
  ["C:\\Windows\\System32", "C:\\Windows\\SysWOW64", "C:\\Windows\\explorer.exe"]

/-- Table `self.suspicious_paths`: suspicious path substrings.  Note the first
entry is a Python raw string whose source reads backslash-Temp-backslash-backslash,
so it really ends in two backslashes. -/
def suspiciousPaths : List String :=
  ["\\Temp\\\\", "\\AppData\\Local\\Temp", "\\Users\\Public", "\\ProgramData", "C:\\$Recycle.Bin"]

/-- Table `self.common_names`: common process names used for typosquatting and path
checks (set literal, in source order). -/
def commonNames : List String :=
  ["svchost.exe", "lsass.exe", "csrss.exe", "explorer.exe",
   "services.exe", "smss.exe", "winlogon.exe", "wininit.exe",
   "spoolsv.exe", "taskhost.exe", "dwm.exe", "conhost.exe"]

/-- Model of Python `str.lower()` (ASCII case mapping, which is all that the
process names involved use): lowercase every character. -/
def strLower (s : String) : String := ⟨s.data.map Char.toLower⟩

/-- Model of the Python substring test `needle in hay` on strings: `needle`
occurs contiguously in `hay`. -/
def hasSubstring (needle : List Char) : List Char → Bool
  | [] => needle.isEmpty
  | c :: rest => needle.isPrefixOf (c :: rest) || hasSubstring needle rest

/-- The lowercase-normalized process name, read with a default empty string
and lowercased, as every rule does. -/
def lowName (p : Proc) : String := strLower (p.name.getD "")

/-- The process map built by `detect_anomalies` as a dict comprehension keyed
by pid, as a lookup: later records with the same pid win, exactly like
repeated dict-comprehension assignment. -/
def procMapFind (ps : List Proc) (pid : Int) : Option Proc :=
  ps.foldl (fun acc p => if p.pid = pid then some p else acc) none

/-- The shell/script-host parent names of the suspicious-spawn branch of
`_check_parent_anomaly`. -/
def shellParents : List String := ["cmd.exe", "powershell.exe", "wscript.exe", "cscript.exe"]

/-- The office-application child names of the suspicious-spawn branch of
`_check_parent_anomaly`. -/
def officeChildren : List String := ["winword.exe", "excel.exe", "powerpnt.exe", "outlook.exe"]

/-- The loop `for expected_parent, expected_children in self.expected_parents.items()`
inside `_check_parent_anomaly`: return at the first table entry whose children
contain the process name while the actual parent differs. -/
def parentTableLoop (proc : Proc) (procName parentName : String) (ppid : Int) :
    List (String × List String) → Option Finding
  | [] => none
  | (expParent, expChildren) :: rest =>
    if expChildren.contains procName then
      if parentName ≠ expParent then
        some { ftype := "unexpected_parent", severity := "high",
               pid := some proc.pid, process := procName,
               parent_pid := some ppid, parent_name := some parentName,
               expected_parent := some expParent }
      else
        parentTableLoop proc procName parentName ppid rest
    else
      parentTableLoop proc procName parentName ppid rest

/-- Function `_check_parent_anomaly`: parent-lineage rule followed by the
suspicious-spawn rule.  The guard `if not ppid or ppid not in proc_map` skips
records whose ppid is absent, zero (falsy), or unresolvable. -/
def checkParentAnomaly (proc : Proc) (procMap : Int → Option Proc) : Option Finding :=
  let procName := lowName proc
  match proc.ppid with
  | none => none
  | some ppid =>
    if ppid = 0 then none
    else
      match procMap ppid with
      | none => none
      | some parent =>
        let parentName := strLower (parent.name.getD "")
        match parentTableLoop proc procName parentName ppid expectedParents with
        | some f => some f
        | none =>
          if shellParents.contains parentName && officeChildren.contains procName then
            some { ftype := "suspicious_parent_child", severity := "critical",
                   pid := some proc.pid, process := procName,
                   parent_pid := some ppid, parent_name := some parentName }
          else none

/-- The condition under which the parent-lineage rule of
`_check_parent_anomaly` fires for a process named `procName` with resolved
parent named `parentName`: some table entry lists the name as a child and the
actual parent differs. -/
def unexpectedParentCond (procName parentName : String) : Bool :=
  expectedParents.any (fun pr => pr.2.contains procName && parentName != pr.1)

/-- The condition under which the suspicious-spawn rule of
`_check_parent_anomaly` fires: shell/script-host parent and office-application
child. -/
def suspiciousSpawnCond (procName parentName : String) : Bool :=
  shellParents.contains parentName && officeChildren.contains procName

/-- Lookup in the `j2len` working dictionary of `difflib.SequenceMatcher.find_longest_match`,
with default 0 for absent keys. -/
def lookupJ (m : List (Nat × Nat)) (j : Nat) : Nat :=
  match m.find? (fun q => q.1 == j) with
  | some q => q.2
  | none => 0

/-- Model of `difflib.SequenceMatcher(None, a, b).find_longest_match(alo, ahi, blo, bhi)`
in the junk-free case (no `isjunk` argument is passed and the autojunk
heuristic only applies when `len(b) >= 200`, which never holds for the short
process names compared here).  Returns `(besti, bestj, bestsize)`.  The outer
fold is the `for i in range(alo, ahi)` loop; the inner fold is the loop over
the positions `j` of the character `a[i]` in `b` (restricted to
`blo <= j < bhi`), reading chain lengths from the previous row `j2len` and
writing the new row, updating the best block whenever a strictly longer one is
found (so ties keep the earliest `i`, then the earliest `j`). -/
def findLongestMatch (a b : List Char) (alo ahi blo bhi : Nat) : Nat × Nat × Nat :=
  let step := fun (st : List (Nat × Nat) × (Nat × Nat × Nat)) (i : Nat) =>
    let inner := fun (st2 : List (Nat × Nat) × (Nat × Nat × Nat)) (j : Nat) =>
      let charsMatch :=
        match a.get? i, b.get? j with
        | some x, some y => x == y
        | _, _ => false
      if charsMatch then
        let k := (if j == 0 then 0 else lookupJ st.1 (j - 1)) + 1
        let best2 := st2.2
        ((j, k) :: st2.1, if k > best2.2.2 then (i + 1 - k, j + 1 - k, k) else best2)
      else st2
    (List.range' blo (bhi - blo)).foldl inner ([], st.2)
  ((List.range' alo (ahi - alo)).foldl step ([], (alo, blo, 0))).2

/-- Total size of the matching blocks computed by
`difflib.SequenceMatcher.get_matching_blocks`: the queue-driven recursion that
repeatedly takes the longest match of the current slice pair and recurses on
the pieces to its left and right.  `fuel` bounds the number of queue pops; it
is structural only, and the initial fuel given in `matchTotal` always
suffices. -/
def matchTotalAux (a b : List Char) : Nat → List (Nat × Nat × Nat × Nat) → Nat
  | 0, _ => 0
  | _ + 1, [] => 0
  | fuel + 1, (alo, ahi, blo, bhi) :: rest =>
    let r := findLongestMatch a b alo ahi blo bhi
    if r.2.2 = 0 then matchTotalAux a b fuel rest
    else r.2.2 + matchTotalAux a b fuel ((alo, r.1, blo, r.2.1) :: (r.1 + r.2.2, ahi, r.2.1 + r.2.2, bhi) :: rest)

/-- Sum of matching-block sizes for the two whole strings. -/
def matchTotal (a b : List Char) : Nat :=
  matchTotalAux a b (2 * (a.length + b.length) + 2) [(0, a.length, 0, b.length)]

/-- Model of `difflib.SequenceMatcher(None, a, b).ratio()`: the
Ratcliff/Obershelp measure `2*M / (len(a)+len(b))`, as an exact rational
(`_calculate_ratio` returns 1.0 when both strings are empty). -/
def seqRatio (a b : List Char) : Rat :=
  let total := a.length + b.length
  if total = 0 then 1 else ((2 * matchTotal a b : Nat) : Rat) / (total : Rat)

/-- Model of Python `round(x, 3)` on the exact rational value: round half up.
The similarity values compared in this file are never at an exact half
thousandth, so this agrees with Python float rounding there. -/
def round3 (q : Rat) : Rat := ((⌊q * 1000 + 1 / 2⌋ : Int) : Rat) / 1000

/-- The loop `for common in self.common_names` inside `_check_misspelled_name`:
skip exact matches, compute the similarity ratio, and return a finding at the
first reference name whose ratio exceeds 0.85. -/
def misspellLoop (proc : Proc) (procName : String) : List String → Option Finding
  | [] => none
  | common :: rest =>
    if procName = common then misspellLoop proc procName rest
    else
      let similarity := seqRatio procName.data common.data
      if similarity > 0.85 ∧ procName ≠ common then
        some { ftype := "misspelled_name", severity := "high",
               pid := some proc.pid, process := procName,
               similar_to := some common, similarity := some (round3 similarity) }
      else misspellLoop proc procName rest

/-- Function `_check_misspelled_name`: typosquatting detection against the common-name
set (modelled in source order; see the header note on set iteration order). -/
def checkMisspelledName (proc : Proc) : Option Finding :=
  let procName := lowName proc
  if procName = "" then none
  else misspellLoop proc procName commonNames

/-- Function `_check_unusual_path`: the critical-name path check (Python substring test
`legit_path in proc_path`) followed by the suspicious-substring check.  The
suspicious loop returns at its first matching substring; since the finding
does not record which substring matched, it is modelled with `List.any`. -/
def checkUnusualPath (proc : Proc) : Option Finding :=
  let procPath := proc.path.getD ""
  let procName := lowName proc
  if procPath == "" || procPath == "N/A" || procPath == "None" then none
  else if commonNames.contains procName
          && !(legitimatePaths.any (fun lp => hasSubstring lp.data procPath.data)) then
    some { ftype := "unusual_path", severity := "critical",
           pid := some proc.pid, process := procName, path := some procPath }
  else if suspiciousPaths.any (fun sp => hasSubstring sp.data procPath.data) then
    some { ftype := "suspicious_path", severity := "medium",
           pid := some proc.pid, process := procName, path := some procPath }
  else none

/-- The condition under which the critical-name branch of `_check_unusual_path`
(rule 4) flags a process: a real (non-sentinel) path, a common/critical name,
and no legitimate path occurring as a substring of the path. -/
def rule4Flags (p : Proc) : Bool :=
  let procPath := p.path.getD ""
  !(procPath == "" || procPath == "N/A" || procPath == "None")
    && commonNames.contains (lowName p)
    && !(legitimatePaths.any (fun lp => hasSubstring lp.data procPath.data))

/-- Function `_check_duplicate_instances`: group records by lowercase name and emit one
finding per single-instance name present more than once.  Python groups into
an insertion-ordered dict of lists; the group for a name equals this filter,
in the original record order. -/
def checkDuplicateInstances (ps : List Proc) : List Finding :=
  singleInstanceProcesses.filterMap (fun nm =>
    let group := ps.filter (fun p => lowName p == nm)
    if group.length > 1 then
      some { ftype := "duplicate_instance", severity := "high", process := nm,
             count := some group.length, pids := group.map (·.pid) }
    else none)

/-- The three per-process checks of `detect_anomalies`, in evaluation order
(parent, misspelled name, unusual path), each contributing at most one
finding. -/
def perRecordFindings (procMap : Int → Option Proc) (proc : Proc) : List Finding :=
  (checkParentAnomaly proc procMap).toList
    ++ (checkMisspelledName proc).toList
    ++ (checkUnusualPath proc).toList

/-- Function `detect_anomalies`, applied to the process list fetched from the store:
per-process findings in process-iteration order, then the whole-set
duplicate-instance findings. -/
def detect_anomalies (ps : List Proc) : List Finding :=
  ps.flatMap (perRecordFindings (procMapFind ps)) ++ checkDuplicateInstances ps


/-- A parsed timestamp, modelling a naive Python `datetime` (the comparisons
the timeline performs are lexicographic on these fields, exactly as for
`datetime` objects). -/
structure DateTime where
  year : Nat
  month : Nat
  day : Nat
  hour : Nat
  minute : Nat
  second : Nat
  usec : Nat
deriving DecidableEq

/-- Lexicographic (non-strict) comparison of equal-length numeric key lists:
at each level, a strictly smaller entry decides, an equal entry defers to the
rest. -/
def lexLe : List Nat → List Nat → Bool
  | x :: xs, y :: ys => if x ≠ y then decide (x < y) else lexLe xs ys
  | _, _ => true

/-- The comparison key of a naive Python `datetime`. -/
def dtKey (d : DateTime) : List Nat :=
  [d.year, d.month, d.day, d.hour, d.minute, d.second, d.usec]

/-- The Python `datetime` order: lexicographic on the seven fields. -/
def dtLe (a b : DateTime) : Bool := lexLe (dtKey a) (dtKey b)

/-- Numeric value of an ASCII digit character. -/
def digitVal (c : Char) : Nat := c.toNat - 48

/-- Accumulator loop for `parseNDigits`. -/
def parseNDigitsAux : Nat → Nat → List Char → Option (Nat × List Char)
  | 0, acc, cs => some (acc, cs)
  | _ + 1, _, [] => none
  | k + 1, acc, c :: cs =>
    if c.isDigit then parseNDigitsAux k (acc * 10 + digitVal c) cs else none

/-- Parse exactly `n` ASCII digits (the `\d\d\d\d` of `%Y`, or the fixed
two-digit fields of `fromisoformat`). -/
def parseNDigits (n : Nat) (cs : List Char) : Option (Nat × List Char) :=
  parseNDigitsAux n 0 cs

/-- Parse a one-or-two-digit `strptime` field.  The two-digit form is taken
when present and its value lies in `[min2, max2]` (this is exactly the
two-digit alternatives of the `_strptime` regexes for `%m %d %H %M %S`); the
one-digit fallback accepts any digit, or only `1`-`9` when `allowZero1` is
false (`%m`/`%d` use `[1-9]`).  No further backtracking is needed because each
field is followed by a non-digit literal or the end of the string. -/
def parseField (min2 max2 : Nat) (allowZero1 : Bool) (cs : List Char) :
    Option (Nat × List Char) :=
  match cs with
  | c1 :: c2 :: rest =>
    if c1.isDigit && c2.isDigit then
      let v := digitVal c1 * 10 + digitVal c2
      if min2 ≤ v ∧ v ≤ max2 then some (v, rest) else none
    else if c1.isDigit then
      let v := digitVal c1
      if allowZero1 ∨ 1 ≤ v then some (v, c2 :: rest) else none
    else none
  | [c1] =>
    if c1.isDigit then
      let v := digitVal c1
      if allowZero1 ∨ 1 ≤ v then some (v, []) else none
    else none
  | [] => none

/-- Consume one expected literal character. -/
def litChar (c : Char) (cs : List Char) : Option (List Char) :=
  match cs with
  | x :: rest => if x == c then some rest else none
  | [] => none

/-- Convert the digits of a `%f` fractional-seconds group (1 to 6 digits,
scaled to microseconds) — `none` when the group is empty or longer than 6. -/
def fracToUsec (ds : List Char) : Option Nat :=
  if ds.length = 0 ∨ ds.length > 6 then none
  else some ((ds.foldl (fun a c => a * 10 + digitVal c) 0) * 10 ^ (6 - ds.length))

/-- Days in a month, with Gregorian leap years — the calendar validation the
`datetime` constructor performs. -/
def daysInMonth (y m : Nat) : Nat :=
  if m = 2 then (if (y % 4 = 0 ∧ y % 100 ≠ 0) ∨ y % 400 = 0 then 29 else 28)
  else if m = 4 ∨ m = 6 ∨ m = 9 ∨ m = 11 then 30 else 31

/-- The range checks of the Python `datetime` constructor: a `ValueError` from
an out-of-range field (including second 60/61 admitted by the `%S` regex)
makes the enclosing format attempt fail, which this model renders as
`none`. -/
def mkDateTime (y mo d h mi s us : Nat) : Option DateTime :=
  if 1 ≤ y ∧ y ≤ 9999 ∧ 1 ≤ mo ∧ mo ≤ 12 ∧ 1 ≤ d ∧ d ≤ daysInMonth y mo
     ∧ h ≤ 23 ∧ mi ≤ 59 ∧ s ≤ 59 ∧ us ≤ 999999 then
    some ⟨y, mo, d, h, mi, s, us⟩
  else none

/-- Model of `datetime.strptime(ts, fmt)` for the four formats tried by
`_parse_timestamp`, which differ only in the date-time separator (space or
`T`) and the presence of a `.%f` group: `%Y-%m-%d` then `%H:%M:%S`, the whole
string consumed. -/
def parseWithFormat (sep : Char) (frac : Bool) (cs : List Char) : Option DateTime := do
  let (y, cs) ← parseNDigits 4 cs
  let cs ← litChar '-' cs
  let (mo, cs) ← parseField 1 12 false cs
  let cs ← litChar '-' cs
  let (d, cs) ← parseField 1 31 false cs
  let cs ← litChar sep cs
  let (h, cs) ← parseField 0 23 true cs
  let cs ← litChar ':' cs
  let (mi, cs) ← parseField 0 59 true cs
  let cs ← litChar ':' cs
  let (s, cs) ← parseField 0 61 true cs
  if frac then
    let cs ← litChar '.' cs
    let (ds, rest) := cs.span (·.isDigit)
    let us ← fracToUsec ds
    if rest.isEmpty then mkDateTime y mo d h mi s us else none
  else
    if cs.isEmpty then mkDateTime y mo d h mi s 0 else none

/-- The time part of the `fromisoformat` model: `HH`, `HH:MM`, `HH:MM:SS`, or
`HH:MM:SS` with a `.`/`,`-separated 1-6 digit fraction. -/
def parseIsoTime (cs : List Char) : Option (Nat × Nat × Nat × Nat) := do
  let (h, cs) ← parseNDigits 2 cs
  match cs with
  | [] => some (h, 0, 0, 0)
  | _ =>
    let cs ← litChar ':' cs
    let (mi, cs) ← parseNDigits 2 cs
    match cs with
    | [] => some (h, mi, 0, 0)
    | _ =>
      let cs ← litChar ':' cs
      let (s, cs) ← parseNDigits 2 cs
      match cs with
      | [] => some (h, mi, s, 0)
      | c :: rest =>
        if c == '.' || c == ',' then
          let (ds, rest2) := rest.span (·.isDigit)
          let us ← fracToUsec ds
          if rest2.isEmpty then some (h, mi, s, us) else none
        else none

/-- Model of the final `datetime.fromisoformat(ts)` fallback of
`_parse_timestamp`, restricted to the naive (offset-free) forms the upstream
data can carry: `YYYY-MM-DD`, optionally followed by a single separator
character and a time as in `parseIsoTime`.  Strings with a UTC offset or the
basic (dash-free) date form are conservatively rejected; no claim below
depends on them. -/
def parseIso (cs : List Char) : Option DateTime := do
  let (y, cs) ← parseNDigits 4 cs
  let cs ← litChar '-' cs
  let (mo, cs) ← parseNDigits 2 cs
  let cs ← litChar '-' cs
  let (d, cs) ← parseNDigits 2 cs
  match cs with
  | [] => mkDateTime y mo d 0 0 0 0
  | _ :: timePart =>
    let hmsu ← parseIsoTime timePart
    mkDateTime y mo d hmsu.1 hmsu.2.1 hmsu.2.2.1 hmsu.2.2.2

/-- Whitespace characters removed by Python `str.strip()` (ASCII subset). -/
def isSpaceChar (c : Char) : Bool :=
  c == ' ' || c == '\t' || c == '\n' || c == '\x0d' || c == '\x0b' || c == '\x0c'

/-- Model of `str(x).strip()`: drop leading and trailing whitespace. -/
def pyStrip (cs : List Char) : List Char :=
  ((cs.dropWhile isSpaceChar).reverse.dropWhile isSpaceChar).reverse

/-- Function `_parse_timestamp` of the timeline generator: sentinel strings map to absent, then
the four fixed formats are tried on the stripped string, then the ISO
fallback; every failure collapses to `none` (the Python `except` clauses catch
every parse error), so the function is total. -/
def parseTimestamp (s : String) : Option DateTime :=
  if s = "" ∨ s = "N/A" ∨ s = "None" then none
  else
    let ts := pyStrip s.data
    (parseWithFormat ' ' false ts) <|> (parseWithFormat ' ' true ts)
      <|> (parseWithFormat 'T' false ts) <|> (parseWithFormat 'T' true ts)
      <|> parseIso ts

/-- Shallow embedding of a `TimelineEvent` dataclass instance. -/
structure TimelineEvent where
  timestamp : DateTime
  event_type : String
  description : String
  source : String
  pid : Option Int := none
  process_name : Option String := none
  details : Option Proc := none
  is_suspicious : Bool := false
deriving DecidableEq

/-- The inline `[HIDDEN, SUSPICIOUS]` flag suffix of a creation event
description. -/
def flagStr (p : Proc) : String :=
  let flags := (if p.is_hidden then ["HIDDEN"] else [])
    ++ (if p.is_suspicious then ["SUSPICIOUS"] else [])
  if flags.isEmpty then "" else " [" ++ String.intercalate ", " flags ++ "]"

/-- The creation event a record contributes: emitted when `create_time` is
truthy (present and nonempty) and parses to an instant. -/
def createEvents (p : Proc) : List TimelineEvent :=
  match p.create_time with
  | none => []
  | some ct =>
    if ct = "" then []
    else
      match parseTimestamp ct with
      | none => []
      | some ts =>
        [{ timestamp := ts, event_type := "process_created",
           description := "Process " ++ p.name.getD "Unknown" ++ " (PID "
             ++ toString p.pid ++ ") created" ++ flagStr p,
           source := "process", pid := some p.pid, process_name := p.name,
           details := some p, is_suspicious := p.is_suspicious }]

/-- The exit event a record contributes: emitted when `exit_time` is truthy,
not a sentinel, and parses to an instant. -/
def exitEvents (p : Proc) : List TimelineEvent :=
  match p.exit_time with
  | none => []
  | some et =>
    if et = "" || et = "N/A" || et = "None" then []
    else
      match parseTimestamp et with
      | none => []
      | some ts =>
        [{ timestamp := ts, event_type := "process_exited",
           description := "Process " ++ p.name.getD "Unknown" ++ " (PID "
             ++ toString p.pid ++ ") exited",
           source := "process", pid := some p.pid, process_name := p.name,
           details := some p, is_suspicious := p.is_suspicious }]

/-- The events one process record contributes in `generate_timeline`, in
emission order: the `suspicious_only` skip, then the creation event, then the
exit event. -/
def perProcEvents (suspicious_only : Bool) (p : Proc) : List TimelineEvent :=
  if suspicious_only && !p.is_suspicious then []
  else createEvents p ++ exitEvents p

/-- The sort key comparison of `events.sort(key=lambda e: e.timestamp)`. -/
def eventLe (a b : TimelineEvent) : Bool := dtLe a.timestamp b.timestamp

/-- The unsorted event list collected by `generate_timeline` before the sort:
per-process events in process-iteration order. -/
def rawEvents (suspicious_only : Bool) (ps : List Proc) : List TimelineEvent :=
  ps.flatMap (perProcEvents suspicious_only)

/-- Function `generate_timeline`, applied to the fetched process list: collect events,
sort stably by timestamp (`list.sort` is stable, modelled by the stable
`List.mergeSort`), then filter by event type when `include_types` is truthy
(a missing or empty list means no filtering, matching Python truthiness). -/
def generate_timeline (ps : List Proc) (include_types : Option (List String))
    (suspicious_only : Bool) : List TimelineEvent :=
  let events := (rawEvents suspicious_only ps).mergeSort eventLe
  match include_types with
  | none => events
  | some its =>
    if its.isEmpty then events
    else events.filter (fun e => its.contains e.event_type)

/-- The comparison variant stated by the spec for the include-types filter:
filter the raw events first, then sort.  (This is the wording of the spec, to be
proved equal to `generate_timeline`; the source applies the filter after the
sort.) -/
def generate_timeline_filter_first (ps : List Proc)
    (include_types : Option (List String)) (suspicious_only : Bool) :
    List TimelineEvent :=
  let raw := rawEvents suspicious_only ps
  let filtered :=
    match include_types with
    | none => raw
    | some its =>
      if its.isEmpty then raw
      else raw.filter (fun e => its.contains e.event_type)
  filtered.mergeSort eventLe

theorem parentTableLoop_ftype (proc : Proc) (pn par : String) (ppid : Int) :
    ∀ (tbl : List (String × List String)) (f : Finding),
      parentTableLoop proc pn par ppid tbl = some f → f.ftype = "unexpected_parent" := by
  intro tbl
  induction tbl with
  | nil => intro f h; simp [parentTableLoop] at h
  | cons e rest ih =>
    intro f h
    obtain ⟨expParent, expChildren⟩ := e
    simp only [parentTableLoop] at h
    split at h
    · split at h
      · cases h; rfl
      · exact ih f h
    · exact ih f h

theorem checkParentAnomaly_ftype (p : Proc) (pm : Int → Option Proc) (f : Finding)
    (h : checkParentAnomaly p pm = some f) :
    f.ftype = "unexpected_parent" ∨ f.ftype = "suspicious_parent_child" := by
  simp only [checkParentAnomaly] at h
  split at h
  · simp at h
  · split at h
    · simp at h
    · split at h
      · simp at h
      · split at h
        · rename_i g hg
          cases h
          exact Or.inl (parentTableLoop_ftype _ _ _ _ _ _ hg)
        · split at h
          · cases h; exact Or.inr rfl
          · simp at h

theorem misspellLoop_ftype (proc : Proc) (pn : String) :
    ∀ (names : List String) (f : Finding),
      misspellLoop proc pn names = some f → f.ftype = "misspelled_name" := by
  intro names
  induction names with
  | nil => intro f h; simp [misspellLoop] at h
  | cons c rest ih =>
    intro f h
    simp only [misspellLoop] at h
    split at h
    · exact ih f h
    · split at h
      · cases h; rfl
      · exact ih f h

theorem checkMisspelledName_ftype (p : Proc) (f : Finding)
    (h : checkMisspelledName p = some f) : f.ftype = "misspelled_name" := by
  simp only [checkMisspelledName] at h
  split at h
  · simp at h
  · exact misspellLoop_ftype _ _ _ _ h

theorem checkUnusualPath_ftype (p : Proc) (f : Finding)
    (h : checkUnusualPath p = some f) :
    f.ftype = "unusual_path" ∨ f.ftype = "suspicious_path" := by
  simp only [checkUnusualPath] at h
  split_ifs at h
  · cases Option.some_inj.mp h
    exact Or.inl rfl
  · cases Option.some_inj.mp h
    exact Or.inr rfl

theorem perRecordFindings_parent_source (pm : Int → Option Proc) (p : Proc) (f : Finding)
    (hf : f ∈ perRecordFindings pm p)
    (ht : f.ftype = "unexpected_parent" ∨ f.ftype = "suspicious_parent_child") :
    checkParentAnomaly p pm = some f := by
  rcases List.mem_append.mp hf with hf12 | hf3
  · rcases List.mem_append.mp hf12 with hf1 | hf2
    · rwa [Option.mem_toList, Option.mem_def] at hf1
    · rw [Option.mem_toList, Option.mem_def] at hf2
      have hm := checkMisspelledName_ftype p f hf2
      rcases ht with ht | ht <;> rw [hm] at ht <;> exact absurd ht (by decide)
  · rw [Option.mem_toList, Option.mem_def] at hf3
    have hu := checkUnusualPath_ftype p f hf3
    rcases hu with h2 | h2 <;> rcases ht with ht | ht <;> rw [h2] at ht <;> exact absurd ht (by decide)

theorem both_parent_types_impossible (pm : Int → Option Proc) (p : Proc) :
    (((perRecordFindings pm p).any (fun f => f.ftype == "unexpected_parent"))
      && ((perRecordFindings pm p).any (fun f => f.ftype == "suspicious_parent_child"))) = false := by
  by_contra hcon
  rw [Bool.not_eq_false, Bool.and_eq_true, List.any_eq_true, List.any_eq_true] at hcon
  obtain ⟨⟨f, hf, hft⟩, ⟨g, hg, hgt⟩⟩ := hcon
  rw [beq_iff_eq] at hft hgt
  have h1 := perRecordFindings_parent_source pm p f hf (Or.inl hft)
  have h2 := perRecordFindings_parent_source pm p g hg (Or.inr hgt)
  rw [h1] at h2
  cases h2
  rw [hft] at hgt
  simp at hgt

/-- C1 (refutation): the claim that the parent-lineage rule and the
suspicious-spawn rule "may fire on the same process" in one detection run is
false: for every process map and every process record, the per-record
findings of `detect_anomalies` never contain both an `unexpected_parent` and
a `suspicious_parent_child` finding — `_check_parent_anomaly`, the only
source of either type, returns at most one finding per record.  Stated as a
closed equation: the indicator that one record receives both finding types is
the constantly-false function. -/
theorem c1_no_record_gets_both_parent_findings :
    (fun (pm : Int → Option Proc) (p : Proc) =>
        ((perRecordFindings pm p).any (fun f => f.ftype == "unexpected_parent"))
          && ((perRecordFindings pm p).any (fun f => f.ftype == "suspicious_parent_child")))
      = fun _ _ => false := by
  funext pm p
  exact both_parent_types_impossible pm p

/-- C1 (amended): the two parent rules are mutually exclusive per record: at
most one of `(unexpected_parent, suspicious_parent_child)` is emitted for a
record in a single run, and no record can even satisfy both firing
conditions, because the office-application child names of the suspicious-spawn
rule appear in no expected-children set of the lineage table. -/
theorem c1_amended_parent_rules_exclusive :
    (∀ (pm : Int → Option Proc) (p : Proc),
      (((perRecordFindings pm p).any (fun f => f.ftype == "unexpected_parent"))
        && ((perRecordFindings pm p).any (fun f => f.ftype == "suspicious_parent_child"))) = false)
    ∧ (∀ procName parentName : String,
        (unexpectedParentCond procName parentName
          && suspiciousSpawnCond procName parentName) = false) := by
  constructor
  · exact both_parent_types_impossible
  · intro pn par
    by_cases hc : officeChildren.contains pn = true
    · have hmem : pn ∈ officeChildren := by simpa using hc
      simp only [officeChildren, List.mem_cons, List.not_mem_nil, or_false] at hmem
      rcases hmem with h | h | h | h <;> subst h <;> rfl
    · rw [Bool.not_eq_true] at hc
      simp only [suspiciousSpawnCond, hc, Bool.and_false]

/-- C2: within `_check_unusual_path`, the critical-name check (rule 4) is
decided first: an `unusual_path` finding is emitted exactly when the rule-4
condition holds, a `suspicious_path` finding can only be emitted when the
rule-4 condition fails, and at most one of the two is emitted for any
process record in a single pass. -/
theorem c2_path_rules_short_circuit (p : Proc) :
    ((checkUnusualPath p).any (fun f => f.ftype == "unusual_path") = rule4Flags p)
    ∧ (((checkUnusualPath p).any (fun f => f.ftype == "suspicious_path"))
        && rule4Flags p) = false
    ∧ (((checkUnusualPath p).any (fun f => f.ftype == "unusual_path"))
        && ((checkUnusualPath p).any (fun f => f.ftype == "suspicious_path"))) = false := by
  simp only [checkUnusualPath, rule4Flags]
  split_ifs with h1 h2 h3 <;> simp_all
  intro ha hb hcc
  rcases h1 with (h | h) | h
  · exact absurd h ha
  · exact absurd h hb
  · exact absurd h hcc

/-- C10: a record whose `ppid` is absent or 0 is skipped by both the
parent-lineage and the suspicious-spawn check — `if not ppid` treats the falsy
pid 0 like an unresolvable parent, even when the process map has an entry for
pid 0. -/
theorem c10_falsy_ppid_skips_parent_checks (p : Proc) (pm : Int → Option Proc)
    (h : p.ppid = none ∨ p.ppid = some 0) : checkParentAnomaly p pm = none := by
  rcases h with h | h <;> simp [checkParentAnomaly, h]

/-- A one-record process list whose only record has pid 0, so that pid 0 is
resolvable in the process map built from it. -/
def pidZeroList : List Proc := [{ pid := 0, name := some "services.exe" }]

/-- A record with the falsy parent pid 0. -/
def ppidZeroProc : Proc := { pid := 5, ppid := some 0, name := some "svchost.exe" }

/-- Witness for C10: pid 0 is present in the map, yet the record with
`ppid = 0` yields no parent finding. -/
theorem c10_falsy_ppid_witness :
    (procMapFind pidZeroList 0).isSome = true
      ∧ checkParentAnomaly ppidZeroProc (procMapFind pidZeroList) = none :=
  ⟨by decide,
   c10_falsy_ppid_skips_parent_checks ppidZeroProc (procMapFind pidZeroList) (Or.inr rfl)⟩

/-- A critical-name record whose path contains a legitimate path as a
substring but not as a prefix. -/
def c3proc : Proc :=
  { pid := 101, name := some "svchost.exe",
    path := some "X:\\evil\\C:\\Windows\\System32\\svchost.exe" }

/-- C3 (refutation): a common/critical-name record with a real path of which
no legitimate-path entry is a prefix can still receive no `unusual_path`
finding, because `_check_unusual_path` tests Python substring containment
(`legit_path in proc_path`), not prefixes.  The claimed equivalence with
"no entry is a prefix" fails at this concrete record. -/
theorem c3_prefix_iff_counterexample :
    lowName c3proc ∈ commonNames
      ∧ c3proc.path.getD "" ≠ "" ∧ c3proc.path.getD "" ≠ "N/A" ∧ c3proc.path.getD "" ≠ "None"
      ∧ (∀ lp ∈ legitimatePaths, lp.data.isPrefixOf (c3proc.path.getD "").data = false)
      ∧ checkUnusualPath c3proc = none := by
  decide

/-- An `unusual_path` finding can only come out of `_check_unusual_path` when
the rule-4 branch condition held (common name and no legitimate substring). -/
theorem checkUnusualPath_unusual_requires (p : Proc) (f : Finding)
    (hf : checkUnusualPath p = some f) (hft : f.ftype = "unusual_path") :
    (commonNames.contains (lowName p)
      && !legitimatePaths.any fun lp => hasSubstring lp.data (p.path.getD "").data) = true := by
  simp only [checkUnusualPath] at hf
  split_ifs at hf with a b c
  · exact b
  · cases Option.some_inj.mp hf
    simp at hft

/-- C3 (amended): for every record whose lowercase name is in the
common/critical-name set and whose path is not absent or sentinel-valued, an
`unusual_path` finding at `critical` severity is emitted if and only if no
entry of the legitimate-path list occurs as a substring of the path. -/
theorem c3_amended_substring_iff (p : Proc)
    (hname : lowName p ∈ commonNames)
    (hpath : p.path.getD "" ≠ "" ∧ p.path.getD "" ≠ "N/A" ∧ p.path.getD "" ≠ "None") :
    (∃ f, checkUnusualPath p = some f ∧ f.ftype = "unusual_path" ∧ f.severity = "critical")
      ↔ legitimatePaths.any (fun lp => hasSubstring lp.data (p.path.getD "").data) = false := by
  obtain ⟨hp1, hp2, hp3⟩ := hpath
  have hc1 : (p.path.getD "" == "" || p.path.getD "" == "N/A" || p.path.getD "" == "None") = false := by
    simp [hp1, hp2, hp3]
  have hcontains : commonNames.contains (lowName p) = true := List.elem_eq_true_of_mem hname
  cases hA : legitimatePaths.any (fun lp => hasSubstring lp.data (p.path.getD "").data) with
  | false =>
    have hres : checkUnusualPath p =
        some { ftype := "unusual_path", severity := "critical", pid := some p.pid,
               process := lowName p, path := some (p.path.getD "") } := by
      simp [checkUnusualPath, hc1, hA, hname]
    exact ⟨fun _ => rfl, fun _ => ⟨_, hres, rfl, rfl⟩⟩
  | true =>
    constructor
    · rintro ⟨f, hf, hft, -⟩
      have hreq := checkUnusualPath_unusual_requires p f hf hft
      rw [hA] at hreq
      simp at hreq
    · intro h
      exact absurd h (by decide)

/-- A critical-name record running from a suspicious location with no
legitimate-path substring. -/
def c3okproc : Proc :=
  { pid := 3, name := some "lsass.exe", path := some "C:\\Users\\Public\\lsass.exe" }

/-- Witness for the amended C3, at a record where the finding does fire. -/
theorem c3_amended_substring_iff_witness :
    (∃ f, checkUnusualPath c3okproc = some f ∧ f.ftype = "unusual_path" ∧ f.severity = "critical")
      ↔ legitimatePaths.any (fun lp => hasSubstring lp.data (c3okproc.path.getD "").data) = false :=
  c3_amended_substring_iff c3okproc (by decide) (by decide)

/-- Evaluate `seqRatio` through concrete values of `matchTotal` and the string
lengths, giving the ratio as a quotient of cast naturals. -/
theorem seqRatio_eval {a b : List Char} {m t : Nat} (hm : matchTotal a b = m)
    (ht : a.length + b.length = t) (h0 : t ≠ 0) :
    seqRatio a b = ((2 * m : Nat) : Rat) / ((t : Nat) : Rat) := by
  rw [seqRatio, ht, hm, if_neg h0]

/-- C4: the name-similarity rule on a record named `svch0st.exe` yields ratio
20/22 ≥ 0.85 against `svchost.exe` and produces a `misspelled_name` finding at
`high` severity with the ratio rounded to three decimals (0.909) and the
matching reference name; a record named `notepad.exe` crosses the 0.85
threshold for no common name, so no finding is produced. -/
theorem c4_typosquatting_rule :
    seqRatio "svch0st.exe".data "svchost.exe".data ≥ 0.85
    ∧ (∀ p : Proc, p.name = some "svch0st.exe" →
        checkMisspelledName p = some
          { ftype := "misspelled_name", severity := "high", pid := some p.pid,
            process := "svch0st.exe", similar_to := some "svchost.exe",
            similarity := some (909 / 1000) })
    ∧ (∀ p : Proc, p.name = some "notepad.exe" → checkMisspelledName p = none) := by
  have hr : seqRatio "svch0st.exe".data "svchost.exe".data = ((20 : Nat) : Rat) / ((22 : Nat) : Rat) :=
    seqRatio_eval (m := 10) (t := 22) (by decide) (by decide) (by decide)
  refine ⟨by rw [hr]; norm_num, ?_, ?_⟩
  · intro p h
    have hlow : lowName p = "svch0st.exe" := by rw [lowName, h]; decide
    have hgt : seqRatio "svch0st.exe".data "svchost.exe".data > (0.85 : Rat) := by
      rw [hr]; norm_num
    have h3 : round3 (seqRatio "svch0st.exe".data "svchost.exe".data) = 909 / 1000 := by
      rw [hr, round3]; norm_num
    simp [checkMisspelledName, hlow, misspellLoop, commonNames, hgt, h3]
  · intro p h
    have hlow : lowName p = "notepad.exe" := by rw [lowName, h]; decide
    have n1 : ¬(seqRatio "notepad.exe".data "svchost.exe".data > (0.85 : Rat)) := by
      rw [seqRatio_eval (m := 6) (t := 22) (by decide) (by decide) (by decide)]; norm_num
    have n2 : ¬(seqRatio "notepad.exe".data "lsass.exe".data > (0.85 : Rat)) := by
      rw [seqRatio_eval (m := 5) (t := 20) (by decide) (by decide) (by decide)]; norm_num
    have n3 : ¬(seqRatio "notepad.exe".data "csrss.exe".data > (0.85 : Rat)) := by
      rw [seqRatio_eval (m := 4) (t := 20) (by decide) (by decide) (by decide)]; norm_num
    have n4 : ¬(seqRatio "notepad.exe".data "explorer.exe".data > (0.85 : Rat)) := by
      rw [seqRatio_eval (m := 6) (t := 23) (by decide) (by decide) (by decide)]; norm_num
    have n5 : ¬(seqRatio "notepad.exe".data "services.exe".data > (0.85 : Rat)) := by
      rw [seqRatio_eval (m := 5) (t := 23) (by decide) (by decide) (by decide)]; norm_num
    have n6 : ¬(seqRatio "notepad.exe".data "smss.exe".data > (0.85 : Rat)) := by
      rw [seqRatio_eval (m := 4) (t := 19) (by decide) (by decide) (by decide)]; norm_num
    have n7 : ¬(seqRatio "notepad.exe".data "winlogon.exe".data > (0.85 : Rat)) := by
      rw [seqRatio_eval (m := 6) (t := 23) (by decide) (by decide) (by decide)]; norm_num
    have n8 : ¬(seqRatio "notepad.exe".data "wininit.exe".data > (0.85 : Rat)) := by
      rw [seqRatio_eval (m := 6) (t := 22) (by decide) (by decide) (by decide)]; norm_num
    have n9 : ¬(seqRatio "notepad.exe".data "spoolsv.exe".data > (0.85 : Rat)) := by
      rw [seqRatio_eval (m := 5) (t := 22) (by decide) (by decide) (by decide)]; norm_num
    have n10 : ¬(seqRatio "notepad.exe".data "taskhost.exe".data > (0.85 : Rat)) := by
      rw [seqRatio_eval (m := 6) (t := 23) (by decide) (by decide) (by decide)]; norm_num
    have n11 : ¬(seqRatio "notepad.exe".data "dwm.exe".data > (0.85 : Rat)) := by
      rw [seqRatio_eval (m := 5) (t := 18) (by decide) (by decide) (by decide)]; norm_num
    have n12 : ¬(seqRatio "notepad.exe".data "conhost.exe".data > (0.85 : Rat)) := by
      rw [seqRatio_eval (m := 7) (t := 22) (by decide) (by decide) (by decide)]; norm_num
    simp [checkMisspelledName, hlow, misspellLoop, commonNames,
      n1, n2, n3, n4, n5, n6, n7, n8, n9, n10, n11, n12]

/-- A record with the typosquatted name. -/
def svch0stProc : Proc := { pid := 9, name := some "svch0st.exe" }

/-- A record with a benign name matching no common name above threshold. -/
def notepadProc : Proc := { pid := 10, name := some "notepad.exe" }

/-- Witness for C4 at two concrete records. -/
theorem c4_typosquatting_rule_witness :
    checkMisspelledName svch0stProc = some
        { ftype := "misspelled_name", severity := "high", pid := some svch0stProc.pid,
          process := "svch0st.exe", similar_to := some "svchost.exe",
          similarity := some (909 / 1000) }
      ∧ checkMisspelledName notepadProc = none :=
  ⟨c4_typosquatting_rule.2.1 svch0stProc rfl, c4_typosquatting_rule.2.2 notepadProc rfl⟩

/-- The single `duplicate_instance` finding produced for an all-`lsass.exe`
process list: count N and all pids in original input order. -/
def lsassDupFinding (ps : List Proc) : Finding :=
  { ftype := "duplicate_instance", severity := "high", process := "lsass.exe",
    count := some ps.length, pids := ps.map (fun p => p.pid) }

theorem perRecordFindings_no_dup (pm : Int → Option Proc) (p : Proc) (f : Finding)
    (hf : f ∈ perRecordFindings pm p) : f.ftype ≠ "duplicate_instance" := by
  rcases List.mem_append.mp hf with hf12 | hf3
  · rcases List.mem_append.mp hf12 with hf1 | hf2
    · rw [Option.mem_toList, Option.mem_def] at hf1
      rcases checkParentAnomaly_ftype p pm f hf1 with h | h <;> rw [h] <;> decide
    · rw [Option.mem_toList, Option.mem_def] at hf2
      rw [checkMisspelledName_ftype p f hf2]
      decide
  · rw [Option.mem_toList, Option.mem_def] at hf3
    rcases checkUnusualPath_ftype p f hf3 with h | h <;> rw [h] <;> decide

/-- C5: on any list of more than one record all named `lsass.exe`,
`detect_anomalies` returns the per-process findings (none of which is a
`duplicate_instance`) followed by exactly one `duplicate_instance` finding at
`high` severity whose count is the number of records and whose pids are all
the input pids in original order. -/
theorem c5_lsass_duplicate_instances (ps : List Proc) (hN : 1 < ps.length)
    (hall : ∀ p ∈ ps, lowName p = "lsass.exe") :
    detect_anomalies ps = ps.flatMap (perRecordFindings (procMapFind ps)) ++ [lsassDupFinding ps]
      ∧ ∀ f ∈ ps.flatMap (perRecordFindings (procMapFind ps)), f.ftype ≠ "duplicate_instance" := by
  constructor
  · have hother : ∀ nm : String, nm ≠ "lsass.exe" →
        ps.filter (fun p => lowName p == nm) = [] := by
      intro nm hnm
      rw [List.filter_eq_nil_iff]
      intro p hp
      simp [hall p hp, hnm.symm]
    have hself : ps.filter (fun p => lowName p == "lsass.exe") = ps := by
      rw [List.filter_eq_self]
      intro p hp
      simp [hall p hp]
    rw [detect_anomalies]
    congr 1
    rw [checkDuplicateInstances, singleInstanceProcesses]
    simp only [List.filterMap_cons, List.filterMap_nil,
      hother "csrss.exe" (by decide), hother "smss.exe" (by decide),
      hother "wininit.exe" (by decide), hother "services.exe" (by decide),
      hother "winlogon.exe" (by decide), hself]
    simp [lsassDupFinding, hN]
  · intro f hf
    rcases List.mem_flatMap.mp hf with ⟨p, -, hfp⟩
    exact perRecordFindings_no_dup (procMapFind ps) p f hfp

/-- Two records named `lsass.exe`. -/
def lsassPair : List Proc :=
  [{ pid := 1, name := some "lsass.exe" }, { pid := 2, name := some "lsass.exe" }]

/-- Witness for C5 on a concrete two-record list. -/
theorem c5_lsass_duplicate_instances_witness :
    1 < lsassPair.length
      ∧ detect_anomalies lsassPair
          = lsassPair.flatMap (perRecordFindings (procMapFind lsassPair))
            ++ [lsassDupFinding lsassPair] :=
  ⟨by decide, (c5_lsass_duplicate_instances lsassPair (by decide) (by decide)).1⟩

theorem lexLe_refl : ∀ xs : List Nat, lexLe xs xs = true := by
  intro xs
  induction xs with
  | nil => rfl
  | cons x xs ih => simp [lexLe, ih]

theorem lexLe_trans : ∀ xs ys zs : List Nat, xs.length = ys.length →
    ys.length = zs.length → lexLe xs ys = true → lexLe ys zs = true →
    lexLe xs zs = true := by
  intro xs
  induction xs with
  | nil =>
    intro ys zs h1 h2 _ _
    cases ys <;> cases zs <;> simp_all [lexLe]
  | cons x xs ih =>
    intro ys zs h1 h2 hab hbc
    cases ys with
    | nil => simp at h1
    | cons y ys =>
      cases zs with
      | nil => simp at h2
      | cons z zs =>
        simp only [List.length_cons, Nat.add_right_cancel_iff] at h1 h2
        by_cases e1 : x = y
        · subst e1
          simp only [lexLe, ne_eq, not_true_eq_false, if_false, ite_false] at hab
          by_cases e2 : x = z
          · subst e2
            simp only [lexLe, ne_eq, not_true_eq_false, if_false, ite_false] at hbc ⊢
            exact ih ys zs h1 h2 hab hbc
          · simp only [lexLe, ne_eq, e2, not_false_eq_true, if_true, ite_true] at hbc ⊢
            exact hbc
        · simp only [lexLe, ne_eq, e1, not_false_eq_true, if_true, ite_true,
            decide_eq_true_eq] at hab
          by_cases e2 : y = z
          · subst e2
            simp only [lexLe, ne_eq, e1, not_false_eq_true, if_true, ite_true,
              decide_eq_true_eq]
            exact hab
          · simp only [lexLe, ne_eq, e2, not_false_eq_true, if_true, ite_true,
              decide_eq_true_eq] at hbc
            have e3 : x ≠ z := by omega
            simp only [lexLe, ne_eq, e3, not_false_eq_true, if_true, ite_true,
              decide_eq_true_eq]
            omega

theorem lexLe_total : ∀ xs ys : List Nat, (lexLe xs ys || lexLe ys xs) = true := by
  intro xs
  induction xs with
  | nil => intro ys; cases ys <;> simp [lexLe]
  | cons x xs ih =>
    intro ys
    cases ys with
    | nil => simp [lexLe]
    | cons y ys =>
      simp only [lexLe, ne_eq, ite_not]
      by_cases e : x = y
      · subst e; simp only [if_pos rfl]; exact ih ys
      · rw [if_neg ?ne1, if_neg ?ne2]
        case ne1 => exact e
        case ne2 => exact fun h => e h.symm
        rw [Bool.or_eq_true, decide_eq_true_eq, decide_eq_true_eq]
        omega

theorem dtLe_refl (a : DateTime) : dtLe a a = true := lexLe_refl _

theorem dtLe_trans (a b c : DateTime) (hab : dtLe a b = true) (hbc : dtLe b c = true) :
    dtLe a c = true :=
  lexLe_trans (dtKey a) (dtKey b) (dtKey c) rfl rfl hab hbc

theorem dtLe_total (a b : DateTime) : (dtLe a b || dtLe b a) = true :=
  lexLe_total (dtKey a) (dtKey b)

theorem eventLe_trans (a b c : TimelineEvent) (hab : eventLe a b = true)
    (hbc : eventLe b c = true) : eventLe a c = true :=
  dtLe_trans _ _ _ hab hbc

theorem eventLe_total (a b : TimelineEvent) : (eventLe a b || eventLe b a) = true :=
  dtLe_total _ _

/-- A list that splits on both sides of a predicate boundary as two
appends with all-negative then all-positive parts does so uniquely. -/
theorem splitUnique {α : Type} (P : α → Prop) :
    ∀ (xs₁ ys₁ : List α) {xs₂ ys₂ : List α}, xs₁ ++ xs₂ = ys₁ ++ ys₂ →
      (∀ b ∈ xs₁, ¬ P b) → (∀ b ∈ xs₂, P b) → (∀ b ∈ ys₁, ¬ P b) → (∀ b ∈ ys₂, P b) →
      xs₁ = ys₁ ∧ xs₂ = ys₂ := by
  intro xs₁
  induction xs₁ with
  | nil =>
    intro ys₁ xs₂ ys₂ heq h1 h2 h3 h4
    cases ys₁ with
    | nil => simpa using heq
    | cons c t =>
      exfalso
      have hc : c ∈ xs₂ := by rw [List.nil_append] at heq; rw [heq]; exact List.mem_append_left _ (List.mem_cons_self c t)
      exact h3 c (List.mem_cons_self c t) (h2 c hc)
  | cons x xs ih =>
    intro ys₁ xs₂ ys₂ heq h1 h2 h3 h4
    cases ys₁ with
    | nil =>
      exfalso
      have hx : x ∈ ys₂ := by rw [List.nil_append] at heq; rw [← heq]; exact List.mem_append_left _ (List.mem_cons_self x xs)
      exact h1 x (List.mem_cons_self x xs) (h4 x hx)
    | cons c t =>
      simp only [List.cons_append, List.cons.injEq] at heq
      obtain ⟨h5, heq⟩ := heq
      obtain ⟨e1, e2⟩ := ih t heq (fun b hb => h1 b (List.mem_cons_of_mem x hb)) h2
        (fun b hb => h3 b (List.mem_cons_of_mem c hb)) h4
      exact ⟨by rw [e1, h5], e2⟩

/-- Filtering commutes with a stable merge sort over a transitive total
comparison: sorting and then filtering equals filtering and then sorting.
This is the stability property the spec invokes for the include-types
filter. -/
theorem mergeSort_filter_comm {α : Type} (le : α → α → Bool)
    (htrans : ∀ (a b c : α), le a b → le b c → le a c)
    (htot : ∀ (a b : α), le a b || le b a)
    (p : α → Bool) :
    ∀ l : List α, (l.mergeSort le).filter p = (l.filter p).mergeSort le := by
  intro l
  induction l with
  | nil => simp
  | cons a l ih =>
    obtain ⟨l₁, l₂, h₁, h₂, h₃⟩ := List.mergeSort_cons htrans htot a l
    have hs := List.sorted_mergeSort htrans htot (a :: l)
    rw [h₁] at hs
    have hal₂ : ∀ x ∈ l₂, le a x = true := by
      intro x hx
      exact List.rel_of_pairwise_cons (List.pairwise_append.mp hs).2.1 hx
    by_cases hp : p a = true
    · obtain ⟨m₁, m₂, g₁, g₂, g₃⟩ := List.mergeSort_cons htrans htot a (l.filter p)
      have hsm := List.sorted_mergeSort htrans htot (a :: l.filter p)
      rw [g₁] at hsm
      have ham₂ : ∀ x ∈ m₂, le a x = true := by
        intro x hx
        exact List.rel_of_pairwise_cons (List.pairwise_append.mp hsm).2.1 hx
      have key : m₁ ++ m₂ = (l₁.filter p) ++ (l₂.filter p) := by
        rw [← g₂, ← ih, h₂, List.filter_append]
      obtain ⟨hm₁, hm₂⟩ := splitUnique (fun x => le a x = true) m₁ (l₁.filter p) key
        (fun b hb => by have hg := g₃ b hb; simp only [Bool.not_eq_true'] at hg; simp [hg])
        ham₂
        (fun b hb => by
          have hg := h₃ b (List.mem_of_mem_filter hb)
          simp only [Bool.not_eq_true'] at hg
          simp [hg])
        (fun b hb => hal₂ b (List.mem_of_mem_filter hb))
      calc ((a :: l).mergeSort le).filter p
          = (l₁ ++ a :: l₂).filter p := by rw [h₁]
        _ = l₁.filter p ++ a :: l₂.filter p := by
            rw [List.filter_append, List.filter_cons_of_pos hp]
        _ = m₁ ++ a :: m₂ := by rw [hm₁, hm₂]
        _ = ((a :: l).filter p).mergeSort le := by rw [List.filter_cons_of_pos hp, g₁]
    · calc ((a :: l).mergeSort le).filter p
          = (l₁ ++ a :: l₂).filter p := by rw [h₁]
        _ = l₁.filter p ++ l₂.filter p := by
            rw [List.filter_append, List.filter_cons_of_neg hp]
        _ = (l.mergeSort le).filter p := by rw [h₂, List.filter_append]
        _ = (l.filter p).mergeSort le := ih
        _ = ((a :: l).filter p).mergeSort le := by rw [List.filter_cons_of_neg hp]

/-- C9: filtering the event list by event type after the stable timestamp
sort yields exactly the same list as filtering before sorting. -/
theorem c9_filter_commutes_with_sort (ps : List Proc)
    (include_types : Option (List String)) (suspicious_only : Bool) :
    generate_timeline ps include_types suspicious_only
      = generate_timeline_filter_first ps include_types suspicious_only := by
  cases include_types with
  | none => rfl
  | some its =>
    cases he : its.isEmpty with
    | true => simp [generate_timeline, generate_timeline_filter_first, he]
    | false =>
      simp only [generate_timeline, generate_timeline_filter_first, he,
        Bool.false_eq_true, if_false]
      exact mergeSort_filter_comm eventLe eventLe_trans eventLe_total
        (fun e => its.contains e.event_type) (rawEvents suspicious_only ps)

theorem rawEvents_suspicious_filter (ps : List Proc) :
    rawEvents true ps = rawEvents false (ps.filter (fun p => p.is_suspicious)) := by
  induction ps with
  | nil => rfl
  | cons p ps ih =>
    cases hp : p.is_suspicious with
    | false =>
      simp only [rawEvents, List.flatMap_cons] at ih ⊢
      rw [List.filter_cons_of_neg (by simp [hp])]
      simp only [perProcEvents, hp, Bool.not_false, Bool.and_true, if_pos rfl,
        List.nil_append]
      exact ih
    | true =>
      simp only [rawEvents, List.flatMap_cons] at ih ⊢
      rw [List.filter_cons_of_pos (by simp [hp])]
      simp only [List.flatMap_cons]
      rw [ih]
      congr 1
      simp [perProcEvents, hp]

/-- C8: with `suspicious_only` set, filtering happens at the process level:
the generated timeline equals the timeline of the suspicious-filtered record
list, and a non-suspicious record contributes no events at all (neither
creation nor exit). -/
theorem c8_suspicious_only_process_level :
    (∀ (ps : List Proc) (include_types : Option (List String)),
      generate_timeline ps include_types true
        = generate_timeline (ps.filter (fun p => p.is_suspicious)) include_types false)
    ∧ (∀ p : Proc, perProcEvents true p
        = if p.is_suspicious then perProcEvents false p else []) := by
  constructor
  · intro ps it
    simp only [generate_timeline, rawEvents_suspicious_filter]
  · intro p
    cases hp : p.is_suspicious <;> simp [perProcEvents, hp]

/-- A record created at 10:00. -/
def tlProcA : Proc :=
  { pid := 1, name := some "a.exe", create_time := some "2024-01-01 10:00:00" }

/-- A record created at 09:00, listed second. -/
def tlProcB : Proc :=
  { pid := 2, name := some "b.exe", create_time := some "2024-01-01 09:00:00" }

/-- The creation event of `tlProcA`. -/
def evA10 : TimelineEvent :=
  { timestamp := ⟨2024, 1, 1, 10, 0, 0, 0⟩, event_type := "process_created",
    description := "Process a.exe (PID 1) created", source := "process",
    pid := some 1, process_name := some "a.exe", details := some tlProcA,
    is_suspicious := false }

/-- The creation event of `tlProcB`. -/
def evB09 : TimelineEvent :=
  { timestamp := ⟨2024, 1, 1, 9, 0, 0, 0⟩, event_type := "process_created",
    description := "Process b.exe (PID 2) created", source := "process",
    pid := some 2, process_name := some "b.exe", details := some tlProcB,
    is_suspicious := false }

/-- C6: `generate_timeline` returns the collected events sorted ascending by
timestamp; it is a permutation of the raw emission-ordered events, and ties
are broken by input order (the events at any fixed timestamp appear exactly
in their raw emission order).  Concretely, of two records created at 10:00
and 09:00 (in that input order), the 09:00 creation event comes first. -/
theorem c6_timeline_sorted_and_stable :
    (∀ (ps : List Proc) (so : Bool),
      List.Pairwise (fun e₁ e₂ => eventLe e₁ e₂ = true) (generate_timeline ps none so)
      ∧ (generate_timeline ps none so).Perm (rawEvents so ps)
      ∧ ∀ t : DateTime,
          (generate_timeline ps none so).filter (fun e => e.timestamp == t)
            = (rawEvents so ps).filter (fun e => e.timestamp == t))
    ∧ (generate_timeline [tlProcA, tlProcB] none false).map (fun e => (e.pid, e.event_type))
        = [(some 2, "process_created"), (some 1, "process_created")] := by
  constructor
  · intro ps so
    refine ⟨?_, ?_, ?_⟩
    · exact List.sorted_mergeSort eventLe_trans eventLe_total (rawEvents so ps)
    · exact List.mergeSort_perm (rawEvents so ps) eventLe
    · intro t
      have hcomm := mergeSort_filter_comm eventLe eventLe_trans eventLe_total
        (fun e => e.timestamp == t) (rawEvents so ps)
      have hall : ∀ e ∈ (rawEvents so ps).filter (fun e => e.timestamp == t),
          e.timestamp = t := by
        intro e he
        have := (List.mem_filter.mp he).2
        simpa using this
      have hsorted : List.Pairwise (fun e₁ e₂ => eventLe e₁ e₂ = true)
          ((rawEvents so ps).filter (fun e => e.timestamp == t)) := by
        apply List.pairwise_of_forall_mem_list
        intro e₁ h₁ e₂ h₂
        show dtLe e₁.timestamp e₂.timestamp = true
        rw [hall e₁ h₁, hall e₂ h₂]
        exact dtLe_refl t
      show ((rawEvents so ps).mergeSort eventLe).filter (fun e => e.timestamp == t) = _
      rw [hcomm]
      exact List.mergeSort_of_sorted hsorted
  · have hraw : rawEvents false [tlProcA, tlProcB] = [evA10, evB09] := by decide
    have h1 : eventLe evA10 evB09 = false := by decide
    have h2 : eventLe evB09 evA10 = true := by decide
    show (((rawEvents false [tlProcA, tlProcB]).mergeSort eventLe).map
      (fun e => (e.pid, e.event_type))) = _
    rw [hraw]
    simp [List.mergeSort, List.merge, h1, h2]
    all_goals decide

/-- C7: timestamp parsing is total and collapses every failure to absent: the
three sentinels and an unparseable string all yield `none`, and a record
whose timestamps all parse to absent contributes no timeline event. -/
theorem c7_parse_total_absent_filtered :
    parseTimestamp "" = none ∧ parseTimestamp "N/A" = none ∧ parseTimestamp "None" = none
    ∧ parseTimestamp "definitely not a timestamp" = none
    ∧ (∀ (so : Bool) (p : Proc),
        parseTimestamp (p.create_time.getD "") = none →
        parseTimestamp (p.exit_time.getD "") = none →
        perProcEvents so p = []) := by
  refine ⟨by decide, by decide, by decide, by decide, ?_⟩
  intro so p h1 h2
  have hc : createEvents p = [] := by
    cases hct : p.create_time with
    | none => simp [createEvents, hct]
    | some ct =>
      rw [hct, Option.getD_some] at h1
      simp [createEvents, hct, h1]
  have he : exitEvents p = [] := by
    cases het : p.exit_time with
    | none => simp [exitEvents, het]
    | some et =>
      rw [het, Option.getD_some] at h2
      simp [exitEvents, het, h2]
  simp [perProcEvents, hc, he]

/-- A record whose timestamps are a sentinel and an unparseable string. -/
def absentTimesProc : Proc :=
  { pid := 3, name := some "ghost.exe", create_time := some "N/A",
    exit_time := some "not a time" }

/-- Witness for C7: the record with absent-parsing timestamps contributes no
events. -/
theorem c7_parse_total_absent_filtered_witness :
    parseTimestamp (absentTimesProc.create_time.getD "") = none
      ∧ perProcEvents false absentTimesProc = [] :=
  ⟨by decide, c7_parse_total_absent_filtered.2.2.2.2 false absentTimesProc
    (by decide) (by decide)⟩
